import Mathlib

/-!
Shallow embedding of `fossdriver/parser.py`.

The Python module extracts typed records from HTML parse trees (built by
BeautifulSoup/lxml) and from decoded JSON values (built by `json.loads`).
We embed the results of those two external decoding steps directly:

* `Node` is a BeautifulSoup parse tree (a Tag with name, attributes and
  children, or a NavigableString leaf).  Functions whose Python source
  begins with `BeautifulSoup(content, "lxml")` take a `Node` — the tree
  the external HTML parser produced for `content`.
* `JsonVal` is a decoded JSON value (Python's result of `json.loads`);
  JSON numbers are modelled as integers, which is all these endpoints emit.
* Where HTML strings occur *inside* JSON values (`parseSingleJobData`,
  `parseUploadDataForFolderLineItem`), the extractor is parameterised by
  the external HTML parser `parse : String → Node`.
* `PyVal` models the dynamically typed values the record fields can hold
  (a `str`, an `int`, `None`, a bs4 Tag, a decoded JSON list/dict/bool):
  record fields in the Python classes receive values of all these types.
* Exceptions are modelled with `Except PyErr`; a Python function that can
  raise becomes a function into `Except PyErr α`.
-/

/-- Python exception classes that the embedded code can raise. -/
inductive PyErr where
  | attributeError
  | indexError
  | keyError
  | typeError
  | valueError
deriving DecidableEq, Repr

/-- Decoded JSON value, the result of Python's `json.loads`.  JSON `null`
decodes to Python `None` and is represented by `jNull`; numbers are
modelled as integers. -/
inductive JsonVal where
  | jNull
  | jBool (b : Bool)
  | jInt (n : Int)
  | jStr (s : String)
  | jArr (xs : List JsonVal)
  | jObj (kvs : List (String × JsonVal))

/-- BeautifulSoup parse tree: a Tag element (name, attributes, children) or
a NavigableString leaf. -/
inductive Node where
  | text (s : String)
  | elem (tag : String) (attrs : List (String × String)) (children : List Node)

mutual

/-- Decidable equality for decoded JSON values. -/
def JsonVal.decEq : (a b : JsonVal) → Decidable (a = b)
  | .jNull, .jNull => isTrue rfl
  | .jNull, .jBool _ => isFalse (by simp)
  | .jNull, .jInt _ => isFalse (by simp)
  | .jNull, .jStr _ => isFalse (by simp)
  | .jNull, .jArr _ => isFalse (by simp)
  | .jNull, .jObj _ => isFalse (by simp)
  | .jBool _, .jNull => isFalse (by simp)
  | .jBool b1, .jBool b2 =>
    if h : b1 = b2 then isTrue (by rw [h]) else isFalse (by simp [h])
  | .jBool _, .jInt _ => isFalse (by simp)
  | .jBool _, .jStr _ => isFalse (by simp)
  | .jBool _, .jArr _ => isFalse (by simp)
  | .jBool _, .jObj _ => isFalse (by simp)
  | .jInt _, .jNull => isFalse (by simp)
  | .jInt _, .jBool _ => isFalse (by simp)
  | .jInt n1, .jInt n2 =>
    if h : n1 = n2 then isTrue (by rw [h]) else isFalse (by simp [h])
  | .jInt _, .jStr _ => isFalse (by simp)
  | .jInt _, .jArr _ => isFalse (by simp)
  | .jInt _, .jObj _ => isFalse (by simp)
  | .jStr _, .jNull => isFalse (by simp)
  | .jStr _, .jBool _ => isFalse (by simp)
  | .jStr _, .jInt _ => isFalse (by simp)
  | .jStr s1, .jStr s2 =>
    if h : s1 = s2 then isTrue (by rw [h]) else isFalse (by simp [h])
  | .jStr _, .jArr _ => isFalse (by simp)
  | .jStr _, .jObj _ => isFalse (by simp)
  | .jArr _, .jNull => isFalse (by simp)
  | .jArr _, .jBool _ => isFalse (by simp)
  | .jArr _, .jInt _ => isFalse (by simp)
  | .jArr _, .jStr _ => isFalse (by simp)
  | .jArr xs, .jArr ys =>
    match JsonVal.decEqList xs ys with
    | isTrue h => isTrue (by rw [h])
    | isFalse h => isFalse (by simp [h])
  | .jArr _, .jObj _ => isFalse (by simp)
  | .jObj _, .jNull => isFalse (by simp)
  | .jObj _, .jBool _ => isFalse (by simp)
  | .jObj _, .jInt _ => isFalse (by simp)
  | .jObj _, .jStr _ => isFalse (by simp)
  | .jObj _, .jArr _ => isFalse (by simp)
  | .jObj xs, .jObj ys =>
    match JsonVal.decEqKVs xs ys with
    | isTrue h => isTrue (by rw [h])
    | isFalse h => isFalse (by simp [h])

/-- Decidable equality for lists of decoded JSON values. -/
def JsonVal.decEqList : (a b : List JsonVal) → Decidable (a = b)
  | [], [] => isTrue rfl
  | [], _ :: _ => isFalse (by simp)
  | _ :: _, [] => isFalse (by simp)
  | x :: xs, y :: ys =>
    match JsonVal.decEq x y, JsonVal.decEqList xs ys with
    | isTrue h1, isTrue h2 => isTrue (by rw [h1, h2])
    | isFalse h1, _ => isFalse (by simp [h1])
    | _, isFalse h2 => isFalse (by simp [h2])

/-- Decidable equality for key-value lists of decoded JSON objects. -/
def JsonVal.decEqKVs : (a b : List (String × JsonVal)) → Decidable (a = b)
  | [], [] => isTrue rfl
  | [], _ :: _ => isFalse (by simp)
  | _ :: _, [] => isFalse (by simp)
  | (k1, v1) :: xs, (k2, v2) :: ys =>
    if hk : k1 = k2 then
      match JsonVal.decEq v1 v2, JsonVal.decEqKVs xs ys with
      | isTrue h1, isTrue h2 => isTrue (by rw [hk, h1, h2])
      | isFalse h1, _ => isFalse (by simp [h1])
      | _, isFalse h2 => isFalse (by simp [h2])
    else isFalse (by simp [hk])

end

instance : DecidableEq JsonVal := JsonVal.decEq

mutual

/-- Decidable equality for bs4 parse trees. -/
def Node.decEq : (a b : Node) → Decidable (a = b)
  | .text s, .text t =>
    if h : s = t then isTrue (by rw [h]) else isFalse (by simp [h])
  | .text _, .elem _ _ _ => isFalse (by simp)
  | .elem _ _ _, .text _ => isFalse (by simp)
  | .elem t1 a1 c1, .elem t2 a2 c2 =>
    if ht : t1 = t2 then
      if ha : a1 = a2 then
        match Node.decEqList c1 c2 with
        | isTrue hc => isTrue (by rw [ht, ha, hc])
        | isFalse hc => isFalse (by simp [hc])
      else isFalse (by simp [ha])
    else isFalse (by simp [ht])

/-- Decidable equality for lists of bs4 parse trees. -/
def Node.decEqList : (a b : List Node) → Decidable (a = b)
  | [], [] => isTrue rfl
  | [], _ :: _ => isFalse (by simp)
  | _ :: _, [] => isFalse (by simp)
  | x :: xs, y :: ys =>
    match Node.decEq x y, Node.decEqList xs ys with
    | isTrue h1, isTrue h2 => isTrue (by rw [h1, h2])
    | isFalse h1, _ => isFalse (by simp [h1])
    | _, isFalse h2 => isFalse (by simp [h2])

end

instance : DecidableEq Node := Node.decEq

/-- Dynamically typed Python value held by a record field of `ParsedUpload`
or `ParsedJob`. -/
inductive PyVal where
  | pStr (s : String)
  | pInt (n : Int)
  | pNone
  | pTag (tag : String) (attrs : List (String × String)) (children : List Node)
  | pList (xs : List JsonVal)
  | pDict (kvs : List (String × JsonVal))
  | pBool (b : Bool)
deriving DecidableEq

/-- Decidable equality for embedded computation results, so that concrete
runs of the extractors can be evaluated by `decide`. -/
instance {ε α : Type} [DecidableEq ε] [DecidableEq α] : DecidableEq (Except ε α) := fun a b =>
  match a, b with
  | .ok x, .ok y => if h : x = y then isTrue (by rw [h]) else isFalse (by simp [h])
  | .ok _, .error _ => isFalse (by simp)
  | .error _, .ok _ => isFalse (by simp)
  | .error x, .error y => if h : x = y then isTrue (by rw [h]) else isFalse (by simp [h])

/-- View a bs4 node as a Python value: a NavigableString compares equal to
the equal `str`, a Tag is its own object. -/
def pyOfNode : Node → PyVal
  | .text s => .pStr s
  | .elem t a cs => .pTag t a cs

/-- View a decoded JSON value as a Python value (`null` is `None`). -/
def pyOfJson : JsonVal → PyVal
  | .jNull => .pNone
  | .jBool b => .pBool b
  | .jInt n => .pInt n
  | .jStr s => .pStr s
  | .jArr xs => .pList xs
  | .jObj kvs => .pDict kvs

/-- Python `==` comparison of a dynamically typed value against a string
literal: only equal strings (including NavigableStrings) compare equal. -/
def pyEqStr : PyVal → String → Bool
  | .pStr s, t => s = t
  | _, _ => false

namespace Node

/-- All descendants of a node in document order (each child followed by its
own descendants), as iterated by bs4's `.descendants`. -/
def descendants : Node → List Node
  | .text _ => []
  | .elem _ _ cs => descendantsList cs
where
  /-- Document-order descendants of a list of sibling subtrees. -/
  descendantsList : List Node → List Node
  | [] => []
  | c :: rest => c :: (descendants c ++ descendantsList rest)

/-- Tag name of an element node, `none` for a string leaf. -/
def tagName : Node → Option String
  | .text _ => none
  | .elem t _ _ => some t

/-- Attribute lookup, bs4's `tag.get(key, None)` / `tag.attrs.get(key)`. -/
def attrGet (n : Node) (key : String) : Option String :=
  match n with
  | .text _ => none
  | .elem _ attrs _ => (attrs.find? (fun kv => kv.1 = key)).map (·.2)

/-- Child list of a node, bs4's `.contents`. -/
def contents : Node → List Node
  | .text _ => []
  | .elem _ _ cs => cs

/-- Whether the node is a Tag with the given name. -/
def isTagNamed (name : String) (n : Node) : Bool :=
  match n with
  | .text _ => false
  | .elem t _ _ => t = name

/-- bs4 `soup.find_all(name)`: all descendant Tags with the given name, in
document order. -/
def findAll (name : String) (n : Node) : List Node :=
  n.descendants.filter (isTagNamed name)

/-- bs4 `soup.find(name)` / attribute access `soup.b`, `soup.a`: the first
descendant Tag with the given name, if any. -/
def findFirst (name : String) (n : Node) : Option Node :=
  (findAll name n).head?

/-- bs4 `soup.find_all(name, attrsDict)` with a one-entry attribute dict:
all descendant Tags with the given name whose attribute `key` equals
`val`. -/
def findAllAttr (name key val : String) (n : Node) : List Node :=
  n.descendants.filter (fun d => isTagNamed name d && (attrGet d key == some val))

/-- bs4 `soup.find(name, attrsDict)` with a one-entry attribute dict. -/
def findFirstAttr (name key val : String) (n : Node) : Option Node :=
  (findAllAttr name key val n).head?

/-- Concatenated text of all descendant strings, bs4's `.text` /
`.get_text()`. -/
def getText : Node → String
  | .text s => s
  | .elem _ _ cs => getTextList cs
where
  /-- Concatenated text of a list of sibling subtrees. -/
  getTextList : List Node → String
  | [] => ""
  | c :: rest => getText c ++ getTextList rest

/-- bs4's `.string` property: the single string child, descending through
single-child Tags; `None` when the node has zero or several children. -/
def nodeString : Node → Option String
  | .text s => some s
  | .elem _ _ cs =>
    match cs with
    | [c] => nodeString c
    | _ => none

end Node

/-- Whether `pat` is an initial segment of `s` (as character lists). -/
def leadsWith : List Char → List Char → Bool
  | [], _ => true
  | _ :: _, [] => false
  | p :: ps, c :: cs => p = c && leadsWith ps cs

/-- First occurrence of `sep` (non-empty) in `s`: the characters before it
and the characters after it, or `none` when `sep` does not occur. -/
def splitFirst (sep : List Char) : List Char → Option (List Char × List Char)
  | [] => none
  | c :: cs =>
    if leadsWith sep (c :: cs) then some ([], (c :: cs).drop sep.length)
    else
      match splitFirst sep cs with
      | some (pre, post) => some (c :: pre, post)
      | none => none

/-- Python `str.partition(sep)` for a non-empty separator: splits at the
first occurrence, returning (before, sep, after); when `sep` does not
occur, returns (s, "", ""). -/
def pyPartition (s sep : String) : String × String × String :=
  match splitFirst sep.toList s.toList with
  | some (pre, post) => (String.mk pre, sep, String.mk post)
  | none => (s, "", "")

/-- Python `sep in s` substring test, for non-empty `sep`. -/
def strContains (s sep : String) : Bool :=
  (splitFirst sep.toList s.toList).isSome

/-- Leading whitespace removed from a character list. -/
def dropWs : List Char → List Char
  | [] => []
  | c :: cs => if c.isWhitespace then dropWs cs else c :: cs

/-- Python `str.strip()`: surrounding whitespace removed. -/
def pyStrip (s : String) : String :=
  String.mk ((dropWs ((dropWs s.toList).reverse)).reverse)

/-- Validity of a digit run for Python `int(str)`: non-empty digits with
single underscores allowed between digits. -/
def pyDigitRun : List Char → Bool
  | [] => false
  | c :: rest => c.isDigit && pyDigitRunRest rest
where
  /-- Continuation after an initial digit. -/
  pyDigitRunRest : List Char → Bool
  | [] => true
  | '_' :: [] => false
  | '_' :: c :: rest => c.isDigit && pyDigitRunRest rest
  | c :: rest => c.isDigit && pyDigitRunRest rest

/-- Numeric value of a digit run, underscores skipped. -/
def digitRunVal (cs : List Char) : Nat :=
  (cs.filter (· ≠ '_')).foldl (fun a c => 10 * a + (c.toNat - 48)) 0

/-- Python `int(s)` on a string: optional surrounding whitespace, optional
sign, then a digit run; `none` models `ValueError`. -/
def pyIntOfStr (s : String) : Option Int :=
  match (pyStrip s).toList with
  | '+' :: rest => if pyDigitRun rest then some (digitRunVal rest) else none
  | '-' :: rest => if pyDigitRun rest then some (-(digitRunVal rest : Int)) else none
  | cs => if pyDigitRun cs then some (digitRunVal cs) else none

/-- Python `int(x)` on a dynamically typed value: strings are parsed
(`ValueError` on failure), ints and bools convert, everything else is a
`TypeError`. -/
def pyInt : PyVal → Except PyErr Int
  | .pStr s =>
    match pyIntOfStr s with
    | some n => .ok n
    | none => .error .valueError
  | .pInt n => .ok n
  | .pBool b => .ok (if b then 1 else 0)
  | .pNone => .error .typeError
  | .pTag _ _ _ => .error .typeError
  | .pList _ => .error .typeError
  | .pDict _ => .error .typeError

namespace JsonVal

/-- Python subscription `v[i]` with a non-negative integer index on a
decoded JSON value: list indexing (IndexError out of range), string
indexing (a one-character string), dict subscription with an int key
(KeyError: decoded JSON objects only have string keys), TypeError
otherwise. -/
def pyIndex (v : JsonVal) (i : Nat) : Except PyErr JsonVal :=
  match v with
  | .jArr xs =>
    match xs.get? i with
    | some x => .ok x
    | none => .error .indexError
  | .jStr s =>
    match s.toList.get? i with
    | some c => .ok (.jStr (String.mk [c]))
    | none => .error .indexError
  | .jObj _ => .error .keyError
  | _ => .error .typeError

/-- Python `v.get(key, default)` on a decoded JSON value, with the default
expressed as a `PyVal`; `AttributeError` when `v` is not a dict.  A stored
JSON `null` is returned as Python `None`. -/
def pyGet (v : JsonVal) (key : String) (dflt : PyVal) : Except PyErr PyVal :=
  match v with
  | .jObj kvs =>
    match (kvs.find? (fun kv => kv.1 = key)).map (·.2) with
    | some x => .ok (pyOfJson x)
    | none => .ok dflt
  | _ => .error .attributeError

/-- Python `v.get(key, None)` on a decoded JSON value, keeping the result
as a decoded JSON value: `none` when the key is missing or its stored
value is JSON `null` (both give Python `None`); `AttributeError` when `v`
is not a dict. -/
def getOrNone (v : JsonVal) (key : String) : Except PyErr (Option JsonVal) :=
  match v with
  | .jObj kvs =>
    match (kvs.find? (fun kv => kv.1 = key)).map (·.2) with
    | some JsonVal.jNull => .ok none
    | some x => .ok (some x)
    | none => .ok none
  | _ => .error .attributeError

end JsonVal

/-- Embedding of the Python class `ParsedUpload` with its constructor
defaults. -/
structure ParsedUpload where
  name : PyVal := .pStr ""
  _id : PyVal := .pInt (-1)
  folderId : Int := -1
  spdxTvUrl : PyVal := .pStr ""
  spdxXmlUrl : PyVal := .pStr ""
deriving DecidableEq

/-- Embedding of the Python class `ParsedJob` with its constructor
defaults. -/
structure ParsedJob where
  _id : Int := -1
  status : PyVal := .pStr ""
  agent : PyVal := .pStr ""
  reportId : Int := -1
deriving DecidableEq

/-- Embedding of `parseUploadDataForFolderLineItem(lineItem)`.  `parse` is
the external HTML parser (`bs4.BeautifulSoup(·, "lxml")`); `lineItem` is
one decoded JSON line item.  Mirrors the source line by line:
`soup = BeautifulSoup(lineItem[0])`; `boldTag = soup.b` then
`u.name = boldTag.string` (an `AttributeError` when there is no bold tag);
the two `soup.find("option", title dict)` lookups each update a URL field
only when found; finally `u._id = lineItem[2][0]`. -/
def parseUploadDataForFolderLineItem (parse : String → Node) (lineItem : JsonVal) :
    Except PyErr ParsedUpload :=
  match lineItem.pyIndex 0 with
  | .error e => .error e
  | .ok cell0 =>
    match cell0 with
    | .jStr s0 =>
      let soup := parse s0
      match Node.findFirst "b" soup with
      | none => .error .attributeError
      | some boldTag =>
        let name := match boldTag.nodeString with
          | some s => PyVal.pStr s
          | none => PyVal.pNone
        let spdxXmlUrl := match Node.findFirstAttr "option" "title" "Generate SPDX report" soup with
          | none => PyVal.pStr ""
          | some opt => match opt.attrGet "value" with
            | some v => PyVal.pStr v
            | none => PyVal.pNone
        let spdxTvUrl := match Node.findFirstAttr "option" "title" "Generate SPDX report in tag:value format" soup with
          | none => PyVal.pStr ""
          | some opt => match opt.attrGet "value" with
            | some v => PyVal.pStr v
            | none => PyVal.pNone
        match lineItem.pyIndex 2 with
        | .error e => .error e
        | .ok cell2 =>
          match cell2.pyIndex 0 with
          | .error e => .error e
          | .ok idVal =>
            .ok { name := name, _id := pyOfJson idVal,
                  spdxTvUrl := spdxTvUrl, spdxXmlUrl := spdxXmlUrl }
    | _ => .error .typeError

/-- Embedding of `parseAllUploadDataForFolder(uploadData)`: the loop
`for lineItem in uploadData` over a decoded JSON row list, appending each
extracted record.  The source's `if u is not None` guard is always true,
since the single-item extractor either returns a record or raises. -/
def parseAllUploadDataForFolder (parse : String → Node) :
    List JsonVal → Except PyErr (List ParsedUpload)
  | [] => .ok []
  | lineItem :: rest =>
    match parseUploadDataForFolderLineItem parse lineItem with
    | .error e => .error e
    | .ok u =>
      match parseAllUploadDataForFolder parse rest with
      | .error e => .error e
      | .ok us => .ok (u :: us)

/-- Body of the `try` block of `parseUploadFormBuildToken`:
`soup.find("input", name dict).get("value", None)`, an `AttributeError`
when `find` returns `None`. -/
def parseUploadFormBuildTokenTry (soup : Node) : Except PyErr (Option String) :=
  match Node.findFirstAttr "input" "name" "uploadformbuild" soup with
  | none => .error .attributeError
  | some inp => .ok (inp.attrGet "value")

/-- Embedding of `parseUploadFormBuildToken(content)`: the `try` body with
the `except` clause that logs a warning and returns `None` on any
exception, so the function itself never raises. -/
def parseUploadFormBuildToken (soup : Node) : Option String :=
  match parseUploadFormBuildTokenTry soup with
  | .ok v => v
  | .error _ => none

/-- Inner loop of `parseFolderNumber`: `for option in folder.findAll("option")`,
returning `option["value"]` (a `KeyError` when the attribute is missing)
for the first option whose stripped text equals `folderName`; `ok none`
when no option of this folder matches. -/
def folderOptionLoop (folderName : String) : List Node → Except PyErr (Option String)
  | [] => .ok none
  | opt :: rest =>
    if pyStrip opt.getText = folderName then
      match opt.attrGet "value" with
      | some v => .ok (some v)
      | none => .error .keyError
    else folderOptionLoop folderName rest

/-- Outer loop of `parseFolderNumber`: `for folder in folders`, falling
through to the next `<select>` only when the current one has no matching
option. -/
def folderLoop (folderName : String) : List Node → Except PyErr (Option String)
  | [] => .ok none
  | f :: rest =>
    match folderOptionLoop folderName (Node.findAll "option" f) with
    | .ok none => folderLoop folderName rest
    | r => r

/-- Embedding of `parseFolderNumber(content, folderName)`:
`soup.find_all("select", name folder dict)` then the two nested loops; the
source's `if folders is None` guard is always false since `find_all`
returns a list. -/
def parseFolderNumber (soup : Node) (folderName : String) : Except PyErr (Option String) :=
  folderLoop folderName (Node.findAllAttr "select" "name" "folder" soup)

/-- Loop of `parseAnchorTagsForNewUploadNumber`: `for anchor in anchors`,
skipping anchors without an `href`, and for the first `href` containing
`upload=` returning `int(href.partition("upload=")[2])`; `-1` when the
loop falls through. -/
def anchorLoop : List Node → Except PyErr Int
  | [] => .ok (-1)
  | a :: rest =>
    match a.attrGet "href" with
    | none => anchorLoop rest
    | some href =>
      if strContains href "upload=" then
        pyInt (.pStr (pyPartition href "upload=").2.2)
      else anchorLoop rest

/-- Embedding of `parseAnchorTagsForNewUploadNumber(content)`:
`soup.find_all("a")` then the anchor loop. -/
def parseAnchorTagsForNewUploadNumber (soup : Node) : Except PyErr Int :=
  anchorLoop (Node.findAll "a" soup)

/-- Tail of the row loop body of `parseDecodedAjaxShowJobsData`: when
status equals `"Completed"` and column 7 has an anchor,
`job.reportId = int(aLink.get("href").partition("report=")[2])`
(an `AttributeError` when that anchor has no `href`); otherwise the job
keeps the sentinel report id `-1` from the constructor. -/
def jobRowFinish (idVal : Int) (status agent : PyVal) (col7 : Node) :
    Except PyErr (Option ParsedJob) :=
  if pyEqStr status "Completed" then
    match Node.findFirst "a" col7 with
    | none => .ok (some { _id := idVal, status := status, agent := agent })
    | some aLink =>
      match aLink.attrGet "href" with
      | none => .error .attributeError
      | some href =>
        match pyInt (.pStr (pyPartition href "report=").2.2) with
        | .error e => .error e
        | .ok rid =>
          .ok (some { _id := idVal, status := status, agent := agent,
                      reportId := rid })
  else .ok (some { _id := idVal, status := status, agent := agent })

/-- Body of the row loop of `parseDecodedAjaxShowJobsData` for one `<tr>`:
`ok none` models `continue` (no `class` attribute, or fewer than 8 `<td>`
cells); otherwise the columns are read exactly as in the source:
`job._id = int(cols[0].a.contents[0])` (`AttributeError` when the cell has
no anchor, `IndexError` on empty contents), status from `cols[1].contents`
with the `"Not started"` default, `job.agent = cols[2].contents[0]`
(`IndexError` on empty), then `jobRowFinish` runs the report-id tail. -/
def parseJobRow (row : Node) : Except PyErr (Option ParsedJob) :=
  match row.attrGet "class" with
  | none => .ok none
  | some _ =>
    if h : (Node.findAll "td" row).length < 8 then .ok none
    else
      match Node.findFirst "a" ((Node.findAll "td" row).get ⟨0, by omega⟩) with
      | none => .error .attributeError
      | some a0 =>
        match a0.contents.head? with
        | none => .error .indexError
        | some c0 =>
          match pyInt (pyOfNode c0) with
          | .error e => .error e
          | .ok idVal =>
            match ((Node.findAll "td" row).get ⟨2, by omega⟩).contents.head? with
            | none => .error .indexError
            | some c2 =>
              jobRowFinish idVal
                (match ((Node.findAll "td" row).get ⟨1, by omega⟩).contents.head? with
                 | none => PyVal.pStr "Not started"
                 | some n => pyOfNode n)
                (pyOfNode c2)
                ((Node.findAll "td" row).get ⟨7, by omega⟩)

/-- Row loop of `parseDecodedAjaxShowJobsData` over `soup.find_all("tr")`,
accumulating the extracted jobs in row order and propagating the first
raised exception. -/
def processJobRows : List Node → Except PyErr (List ParsedJob)
  | [] => .ok []
  | r :: rest =>
    match parseJobRow r with
    | .error e => .error e
    | .ok none => processJobRows rest
    | .ok (some j) =>
      match processJobRows rest with
      | .error e => .error e
      | .ok js => .ok (j :: js)

/-- Embedding of `parseDecodedAjaxShowJobsData(content)` on the parse tree
of the already-decoded HTML. -/
def parseDecodedAjaxShowJobsData (soup : Node) : Except PyErr (List ParsedJob) :=
  processJobRows (Node.findAll "tr" soup)

/-- Job-id block of `parseSingleJobData`:
`soup = BeautifulSoup(jobIdString, "lxml")` (a `TypeError` when
`jobIdString` is `None` or not a string), `aLink = soup.a`,
`if aLink.contents != []` (an `AttributeError` when there is no anchor),
then `job._id = int(aLink.contents[0])`; `-1` (the constructor default)
when the anchor's contents are empty. -/
def singleJobIdField (parse : String → Node) (jobIdString : PyVal) : Except PyErr Int :=
  match jobIdString with
  | .pStr s =>
    match Node.findFirst "a" (parse s) with
    | none => .error .attributeError
    | some aLink =>
      match aLink.contents.head? with
      | none => .ok (-1)
      | some c => pyInt (pyOfNode c)
  | _ => .error .typeError

/-- Status block of `parseSingleJobData`: `statusLines.partition("<br>")[0]`
when `statusLines` is a string, the constructor default `""` when the
`if statusLines is not None` guard fails, and an `AttributeError` when the
stored value is not a string (no `.partition` method). -/
def singleJobStatusField (statusLines : PyVal) : Except PyErr PyVal :=
  match statusLines with
  | .pNone => .ok (.pStr "")
  | .pStr s => .ok (.pStr (pyPartition s "<br>").1)
  | _ => .error .attributeError

/-- Embedding of `parseSingleJobData(content)` on the decoded JSON value
`rj`, after `aaData` has been found: the fixed-position row reads
`jobArr[0]`, `jobArr[3]`, `jobArr[11]`, `jobArr[1]` with their
`.get("1", ...)` lookups, and the report id conversion guarded by the
agent and status comparison.  The source's `if jobIdRow is not None`
guard is always true when reached, because `jobIdRow.get` on `None`
would already have raised. -/
def parseSingleJobArr (parse : String → Node) (jobArr : JsonVal) :
    Except PyErr (Option ParsedJob) :=
    match jobArr.pyIndex 0 with
    | .error e => .error e
    | .ok jobIdRow =>
      match jobIdRow.pyGet "1" .pNone with
      | .error e => .error e
      | .ok jobIdString =>
        match singleJobIdField parse jobIdString with
        | .error e => .error e
        | .ok idVal =>
          match jobArr.pyIndex 3 with
          | .error e => .error e
          | .ok jobAgentRow =>
            match jobAgentRow.pyGet "1" (.pStr "") with
            | .error e => .error e
            | .ok agent =>
              match jobArr.pyIndex 11 with
              | .error e => .error e
              | .ok jobStatusRow =>
                match jobStatusRow.pyGet "1" (.pStr "") with
                | .error e => .error e
                | .ok statusLines =>
                  match singleJobStatusField statusLines with
                  | .error e => .error e
                  | .ok status =>
                    match jobArr.pyIndex 1 with
                    | .error e => .error e
                    | .ok jobReportIdRow =>
                      match jobReportIdRow.pyGet "1" .pNone with
                      | .error e => .error e
                      | .ok jobReportIdString =>
                        if (pyEqStr agent "spdx2tv" || pyEqStr agent "spdx2") &&
                            pyEqStr status "Completed" then
                          match pyInt jobReportIdString with
                          | .error e => .error e
                          | .ok rid =>
                            .ok (some { _id := idVal, status := status,
                                        agent := agent, reportId := rid })
                        else
                          .ok (some { _id := idVal, status := status, agent := agent })

/-- Embedding of `parseSingleJobData(content)` on the decoded JSON value
`rj`: `rj.get("aaData", None)` with the early `return None` when absent,
then the fixed-position body `parseSingleJobArr` on the stored value. -/
def parseSingleJobData (parse : String → Node) (rj : JsonVal) :
    Except PyErr (Option ParsedJob) :=
  match rj.getOrNone "aaData" with
  | .error e => .error e
  | .ok none => .ok none
  | .ok (some jobArr) => parseSingleJobArr parse jobArr

/-- First `href` (in document order, anchors without `href` skipped) that
contains the substring `upload=`; the anchor the source's loop stops at. -/
def firstUploadHref (soup : Node) : Option String :=
  ((Node.findAll "a" soup).filterMap (fun a => a.attrGet "href")).find?
    (fun href => strContains href "upload=")

/-- All `<option>` descendants of every `<select name="folder">` element,
in document order, whose stripped text equals `folderName` — the
candidates the source's nested loops can stop at. -/
def matchingFolderOptions (soup : Node) (folderName : String) : List Node :=
  ((Node.findAllAttr "select" "name" "folder" soup).flatMap
    (fun f => Node.findAll "option" f)).filter
    (fun opt => pyStrip opt.getText = folderName)

/-!
Concrete fixtures: small parse trees and decoded JSON values used to
evaluate the extractors at specific inputs.
-/

/-- A `<td>` cell with the given children. -/
def tdOf (cs : List Node) : Node := Node.elem "td" [] cs

/-- Header row of a job table: no `class` attribute, two cells. -/
def trHeader : Node :=
  Node.elem "tr" [] [tdOf [Node.text "ID"], tdOf [Node.text "Status"]]

/-- Malformed data row: has a `class` attribute but only 7 cells. -/
def tr7 : Node :=
  Node.elem "tr" [("class", "x")]
    [tdOf [], tdOf [], tdOf [], tdOf [], tdOf [], tdOf [], tdOf []]

/-- Well-formed data row: `class` attribute, 8 cells, job id 5, status
Completed, agent spdx2, and a column-7 anchor whose `href` contains
`report=99`. -/
def trData : Node :=
  Node.elem "tr" [("class", "even")]
    [ tdOf [Node.elem "a" [] [Node.text "5"]],
      tdOf [Node.text "Completed"],
      tdOf [Node.text "spdx2"],
      tdOf [], tdOf [], tdOf [], tdOf [],
      tdOf [Node.elem "a" [("href", "http://srv/repo?report=99")] [Node.text "dl"]] ]

/-- Decoded job-table document holding the three rows above. -/
def doc3 : Node :=
  Node.elem "html" [] [Node.elem "body" [] [Node.elem "table" [] [trHeader, tr7, trData]]]

/-- The job record extracted from `trData`. -/
def job3 : ParsedJob :=
  { _id := 5, status := .pStr "Completed", agent := .pStr "spdx2", reportId := 99 }

/-- HTML parser fixture returning a tree with no bold tag. -/
def parse0 : String → Node := fun _ =>
  Node.elem "html" [] [Node.elem "body" [] [Node.elem "p" [] [Node.text "hi"]]]

/-- Line item whose cell 0 markup contains no bold tag. -/
def li0 : JsonVal :=
  JsonVal.jArr [JsonVal.jStr "<p>hi</p>", JsonVal.jNull, JsonVal.jArr [JsonVal.jInt 7]]

/-- HTML parser fixture returning a tree whose bold tag holds the name. -/
def parseGood : String → Node := fun _ =>
  Node.elem "html" [] [Node.elem "body" [] [Node.elem "b" [] [Node.text "pkg"]]]

/-- Line item whose cell 0 markup has a bold tag and whose cell 2 starts
with the upload id 3. -/
def liGood : JsonVal :=
  JsonVal.jArr [JsonVal.jStr "<b>pkg</b>", JsonVal.jNull, JsonVal.jArr [JsonVal.jInt 3]]

/-- The upload record extracted from `liGood`. -/
def upGood : ParsedUpload := { name := .pStr "pkg", _id := .pInt 3 }

/-- Folder-browse document: one `<select name="folder">` with an option
`Engineering` (value 7) and an option ` Marketing ` with padded text
(value 9). -/
def soupF : Node :=
  Node.elem "html" [] [Node.elem "body" [] [Node.elem "form" []
    [Node.elem "select" [("name", "folder")]
      [Node.elem "option" [("value", "7")] [Node.text "Engineering"],
       Node.elem "option" [("value", "9")] [Node.text " Marketing "]]]]]

/-- Document with one anchor whose `href` ends in `upload=42`, nested in a
div. -/
def doc7 : Node :=
  Node.elem "html" [] [Node.elem "body" [] [Node.elem "div" []
    [Node.elem "a" [("href", "http://x/y?upload=42")] [Node.text "here"]]]]

/-- Document whose only matching anchor has trailing characters after the
number: `upload=42&foo=1`. -/
def doc10 : Node :=
  Node.elem "html" [] [Node.elem "body" []
    [Node.elem "a" [("href", "http://x/y?upload=42&foo=1")] [Node.text "here"]]]

/-- Document with anchors but none whose `href` contains `upload=`. -/
def docNoUpload : Node :=
  Node.elem "html" [] [Node.elem "body" []
    [Node.elem "a" [("href", "http://x/y?folder=3")] [Node.text "a1"],
     Node.elem "a" [] [Node.text "a2"]]]

/-- Upload-form document containing the `uploadformbuild` input. -/
def soupT : Node :=
  Node.elem "html" [] [Node.elem "body" [] [Node.elem "form" []
    [Node.elem "input" [("name", "uploadformbuild"), ("value", "tok123")] []]]]

/-- The `uploadformbuild` input element inside `soupT`. -/
def inpT : Node := Node.elem "input" [("name", "uploadformbuild"), ("value", "tok123")] []

/-- Document with no input elements at all. -/
def docEmpty : Node := Node.elem "html" [] []

/-- HTML parser fixture that is never consulted on a hit path. -/
def anyParse : String → Node := fun _ => Node.elem "html" [] []

/-- Decoded JSON object without an `aaData` field. -/
def rj4 : JsonVal := JsonVal.jObj [("other", JsonVal.jInt 1)]

/-- HTML parser fixture mapping the job-id markup to a tree whose anchor
text is 5. -/
def parse9 : String → Node := fun _ =>
  Node.elem "html" [] [Node.elem "body" [] [Node.elem "a" [] [Node.text "5"]]]

/-- Row whose column `"1"` holds the job-id markup. -/
def row0 : JsonVal := JsonVal.jObj [("1", JsonVal.jStr "<a>5</a>")]

/-- Generic filler row. -/
def rowA : JsonVal := JsonVal.jObj [("1", JsonVal.jStr "nomos")]

/-- Key-value list of a single-job response whose `aaData` has only 11
rows (indices 0 to 10). -/
def kvs9 : List (String × JsonVal) :=
  [("aaData", JsonVal.jArr [row0, rowA, rowA, rowA, rowA, rowA, rowA, rowA, rowA, rowA, rowA])]

/-- Single-job response whose `aaData` has only 11 rows. -/
def rj9 : JsonVal := JsonVal.jObj kvs9

/-- Status row: `Completed<br>more`. -/
def rowStatus : JsonVal := JsonVal.jObj [("1", JsonVal.jStr "Completed<br>more")]

/-- Report-id row holding 77. -/
def rowReport : JsonVal := JsonVal.jObj [("1", JsonVal.jStr "77")]

/-- Agent row holding spdx2. -/
def rowAgent : JsonVal := JsonVal.jObj [("1", JsonVal.jStr "spdx2")]

/-- Well-formed 12-row single-job response: agent spdx2, status Completed,
report id 77. -/
def rj2 : JsonVal := JsonVal.jObj [("aaData", JsonVal.jArr
  [row0, rowReport, rowA, rowAgent, rowA, rowA, rowA, rowA, rowA, rowA, rowA, rowStatus])]

/-- The job record extracted from `rj2`. -/
def jobS : ParsedJob :=
  { _id := 5, status := .pStr "Completed", agent := .pStr "spdx2", reportId := 77 }

/-!
Theorems.
-/

/-- The anchor loop stops at the first `href` (anchors without `href`
skipped) containing `upload=` and converts the whole remainder after the
first marker occurrence with `int`; it returns `-1` when no `href`
matches. -/
theorem anchorLoop_eq_first (as : List Node) :
    anchorLoop as =
      match (as.filterMap (fun a => a.attrGet "href")).find?
          (fun href => strContains href "upload=") with
      | none => .ok (-1)
      | some href => pyInt (.pStr (pyPartition href "upload=").2.2) := by
  induction as with
  | nil => rfl
  | cons a rest ih =>
    simp only [anchorLoop, List.filterMap_cons]
    cases hh : a.attrGet "href" with
    | none => simpa using ih
    | some href =>
      by_cases hc : strContains href "upload=" = true
      · simp [List.find?_cons_of_pos, hc]
      · simp only [Bool.not_eq_true] at hc
        simp [List.find?_cons_of_neg, hc, ih]

/-- Claim C4: for every decoded JSON object lacking the `aaData` field,
`parseSingleJobData` returns `None` without raising and without building a
partial record. -/
theorem parseSingleJobData_absent_aaData (parse : String → Node)
    (kvs : List (String × JsonVal))
    (h : kvs.find? (fun kv => kv.1 = "aaData") = none) :
    parseSingleJobData parse (JsonVal.jObj kvs) = .ok none := by
  simp [parseSingleJobData, JsonVal.getOrNone, h]

/-- Witness for C4 at a concrete object without `aaData`. -/
theorem parseSingleJobData_absent_aaData_witness :
    parseSingleJobData anyParse rj4 = .ok none :=
  parseSingleJobData_absent_aaData anyParse [("other", JsonVal.jInt 1)] (by decide)

/-- Claim C6: `parseUploadFormBuildToken` never lets an exception escape
(its result type is a plain `Option`, the `except` clause catching the
inner failure): when the `uploadformbuild` input is missing it returns
`None`, and otherwise it returns that element's `value` attribute. -/
theorem parseUploadFormBuildToken_total (soup : Node) :
    (Node.findFirstAttr "input" "name" "uploadformbuild" soup = none →
      parseUploadFormBuildToken soup = none) ∧
    (∀ inp, Node.findFirstAttr "input" "name" "uploadformbuild" soup = some inp →
      parseUploadFormBuildToken soup = inp.attrGet "value") := by
  constructor
  · intro h
    simp [parseUploadFormBuildToken, parseUploadFormBuildTokenTry, h]
  · intro inp h
    simp [parseUploadFormBuildToken, parseUploadFormBuildTokenTry, h]

/-- Witness for C6: the token is extracted from `soupT`, and the empty
document yields `None`. -/
theorem parseUploadFormBuildToken_total_witness :
    parseUploadFormBuildToken soupT = some "tok123" ∧
    parseUploadFormBuildToken docEmpty = none := by
  constructor
  · have h := (parseUploadFormBuildToken_total soupT).2 inpT (by decide)
    rw [h]
    decide
  · exact (parseUploadFormBuildToken_total docEmpty).1 (by decide)

/-- Claim C7: `parseAnchorTagsForNewUploadNumber` returns `-1` for every
document in which no anchor has an `href` containing `upload=`, and
returns 42 for `doc7`, whose nested anchor's `href` ends in `upload=42`. -/
theorem parseAnchorTagsForNewUploadNumber_sentinel_and_found (soup : Node)
    (h : ∀ a ∈ Node.findAll "a" soup,
        (a.attrGet "href").all (fun href => !strContains href "upload=") = true) :
    parseAnchorTagsForNewUploadNumber soup = .ok (-1) ∧
    parseAnchorTagsForNewUploadNumber doc7 = .ok 42 := by
  constructor
  · unfold parseAnchorTagsForNewUploadNumber
    rw [anchorLoop_eq_first]
    have hn : ((Node.findAll "a" soup).filterMap (fun a => a.attrGet "href")).find?
        (fun href => strContains href "upload=") = none := by
      rw [List.find?_eq_none]
      intro href hmem
      rw [List.mem_filterMap] at hmem
      obtain ⟨a, ha, hga⟩ := hmem
      have hh := h a ha
      rw [hga] at hh
      simpa using hh
    rw [hn]
  · decide

/-- Witness for C7 at a document whose anchors have no matching `href`. -/
theorem parseAnchorTagsForNewUploadNumber_sentinel_and_found_witness :
    parseAnchorTagsForNewUploadNumber docNoUpload = .ok (-1) ∧
    parseAnchorTagsForNewUploadNumber doc7 = .ok 42 :=
  parseAnchorTagsForNewUploadNumber_sentinel_and_found docNoUpload (by decide)

/-- Claim C10: the returned value is `int` applied to the entire remainder
of the first matching `href` after the first `upload=` occurrence, and on
`doc10` — whose matching `href` is `http://x/y?upload=42&foo=1`, with
trailing characters after the number — the call raises `ValueError`
instead of returning 42 or `-1`. -/
theorem parseAnchorTagsForNewUploadNumber_whole_remainder (soup : Node) :
    (parseAnchorTagsForNewUploadNumber soup =
      match firstUploadHref soup with
      | none => .ok (-1)
      | some href => pyInt (.pStr (pyPartition href "upload=").2.2)) ∧
    parseAnchorTagsForNewUploadNumber doc10 = .error .valueError ∧
    strContains "http://x/y?upload=42&foo=1" "upload=" = true := by
  refine ⟨?_, by decide, by decide⟩
  unfold parseAnchorTagsForNewUploadNumber firstUploadHref
  exact anchorLoop_eq_first _

/-- Claim C8: whenever the upload-listing loop returns, the result has at
most as many records as the input has rows, and the i-th record is the
extraction of the i-th row, so relative order is preserved.  (The
source's `if u is not None` filter never actually drops a row: a failing
row raises, and the exception propagates out of the whole call.) -/
theorem parseAllUploadDataForFolder_order (parse : String → Node)
    (ud : List JsonVal) (res : List ParsedUpload)
    (h : parseAllUploadDataForFolder parse ud = .ok res) :
    res.length ≤ ud.length ∧
    ∀ i (hi : i < res.length), ∃ hj : i < ud.length,
      parseUploadDataForFolderLineItem parse (ud.get ⟨i, hj⟩) = .ok (res.get ⟨i, hi⟩) := by
  induction ud generalizing res with
  | nil =>
    simp only [parseAllUploadDataForFolder] at h
    cases h
    exact ⟨Nat.le_refl _, fun i hi => absurd hi (by simp)⟩
  | cons li rest ih =>
    simp only [parseAllUploadDataForFolder] at h
    cases h1 : parseUploadDataForFolderLineItem parse li with
    | error e => rw [h1] at h; exact absurd h (by simp)
    | ok u =>
      rw [h1] at h
      cases h2 : parseAllUploadDataForFolder parse rest with
      | error e => rw [h2] at h; exact absurd h (by simp)
      | ok us =>
        rw [h2] at h
        have hres : u :: us = res := by
          simpa using h
        obtain ⟨hle, hidx⟩ := ih us h2
        subst hres
        refine ⟨by simpa using Nat.succ_le_succ hle, ?_⟩
        intro i hi
        cases i with
        | zero => exact ⟨by simp, by simpa using h1⟩
        | succ n =>
          have hn : n < us.length := by simpa using hi
          obtain ⟨hj, he⟩ := hidx n hn
          exact ⟨by simpa using Nat.succ_lt_succ hj, by simpa using he⟩

/-- Witness for C8 at a one-row input that extracts successfully. -/
theorem parseAllUploadDataForFolder_order_witness :
    ([upGood] : List ParsedUpload).length ≤ ([liGood] : List JsonVal).length ∧
    parseUploadDataForFolderLineItem parseGood
        (([liGood] : List JsonVal).get ⟨0, by decide⟩) =
      .ok (([upGood] : List ParsedUpload).get ⟨0, by decide⟩) := by
  have h := parseAllUploadDataForFolder_order parseGood [liGood] [upGood] (by decide)
  refine ⟨h.1, ?_⟩
  obtain ⟨hj, he⟩ := h.2 0 (by decide)
  exact he

/-- Counterexample to C1 as stated: a concrete line item whose cell 0 has
no bold tag makes the call raise `AttributeError` (from `boldTag.string`
on `None`) instead of returning a record with the default name. -/
theorem parseUploadDataForFolderLineItem_no_bold_cex :
    Node.findFirst "b" (parse0 "<p>hi</p>") = none ∧
    parseUploadDataForFolderLineItem parse0 li0 = .error .attributeError := by
  constructor
  · decide
  · decide

/-- Claim C1 (amended): for every line item whose cell 0 is a string whose
parse tree contains no bold tag, `parseUploadDataForFolderLineItem`
raises `AttributeError` — it does not return a default-named record. -/
theorem parseUploadDataForFolderLineItem_no_bold_raises
    (parse : String → Node) (lineItem : JsonVal) (s0 : String)
    (h0 : lineItem.pyIndex 0 = .ok (.jStr s0))
    (hb : Node.findFirst "b" (parse s0) = none) :
    parseUploadDataForFolderLineItem parse lineItem = .error .attributeError := by
  unfold parseUploadDataForFolderLineItem
  rw [h0]
  simp [hb]

/-- Witness for the amended C1 at the concrete no-bold-tag line item. -/
theorem parseUploadDataForFolderLineItem_no_bold_raises_witness :
    parseUploadDataForFolderLineItem parse0 li0 = .error .attributeError :=
  parseUploadDataForFolderLineItem_no_bold_raises parse0 li0 "<p>hi</p>"
    (by decide) (by decide)

/-- The option of `soupF` whose text is exactly `Engineering`. -/
def optEng : Node := Node.elem "option" [("value", "7")] [Node.text "Engineering"]

/-- Counterexample to C5 as stated: `soupF` has a folder option whose text
is exactly `"Engineering"` (value 7), yet the supplied folderName
`" Engineering "` does not match it — the source trims only the option's
text, never the supplied name — so the lookup returns `None` instead of
the option's value. -/
theorem parseFolderNumber_folderName_not_trimmed_cex :
    optEng ∈ Node.findAll "option" soupF ∧
    optEng.getText = "Engineering" ∧
    optEng.attrGet "value" = some "7" ∧
    parseFolderNumber soupF " Engineering " = .ok none := by
  refine ⟨by decide, by decide, by decide, by decide⟩

/-- The inner option loop returns the value of the first option whose
stripped text equals the folder name (`KeyError` when that option has no
value attribute), and `None` when no option of the list matches. -/
theorem folderOptionLoop_eq (fn : String) (opts : List Node) :
    folderOptionLoop fn opts =
      match (opts.filter (fun o => pyStrip o.getText = fn)).head? with
      | none => .ok none
      | some opt =>
        match opt.attrGet "value" with
        | some v => .ok (some v)
        | none => .error .keyError := by
  induction opts with
  | nil => rfl
  | cons o rest ih =>
    simp only [folderOptionLoop, List.filter_cons]
    by_cases hmatch : pyStrip o.getText = fn
    · simp [hmatch]
    · simp [hmatch, ih]

/-- The nested folder/option loops scan options of all matching selects in
document order and stop at the first whose stripped text equals the
folder name. -/
theorem folderLoop_eq (fn : String) (fs : List Node) :
    folderLoop fn fs =
      match ((fs.flatMap (fun f => Node.findAll "option" f)).filter
          (fun o => pyStrip o.getText = fn)).head? with
      | none => .ok none
      | some opt =>
        match opt.attrGet "value" with
        | some v => .ok (some v)
        | none => .error .keyError := by
  induction fs with
  | nil => rfl
  | cons f rest ih =>
    simp only [folderLoop, folderOptionLoop_eq, List.flatMap_cons, List.filter_append,
      List.head?_append]
    cases hh : ((Node.findAll "option" f).filter (fun o => pyStrip o.getText = fn)).head? with
    | none =>
      simp only [Option.none_or]
      exact ih
    | some opt =>
      simp only [Option.or_some]
      cases hv : opt.attrGet "value" with
      | none => rfl
      | some v => rfl

/-- Claim C5 (amended): an option matches iff the option's stripped text
equals `folderName` exactly; `folderName` itself is not trimmed.  The
first matching option in document order wins (its `value` attribute is
returned), and the absence of any matching option — in particular of any
`<select name="folder">` — yields `None`.  Concretely on `soupF`: option
text `" Marketing "` matches folderName `"Marketing"` (option-side
trimming), while `"engineering"` does not match `"Engineering"`
(case-sensitive). -/
theorem parseFolderNumber_characterization (soup : Node) (folderName : String) :
    (parseFolderNumber soup folderName =
      match (matchingFolderOptions soup folderName).head? with
      | none => .ok none
      | some opt =>
        match opt.attrGet "value" with
        | some v => .ok (some v)
        | none => .error .keyError) ∧
    parseFolderNumber soupF "Marketing" = .ok (some "9") ∧
    parseFolderNumber soupF "engineering" = .ok none := by
  refine ⟨?_, by decide, by decide⟩
  unfold parseFolderNumber matchingFolderOptions
  exact folderLoop_eq folderName _

/-- A `<tr>` without a `class` attribute is skipped by the row body. -/
theorem parseJobRow_no_class (row : Node) (h : row.attrGet "class" = none) :
    parseJobRow row = .ok none := by
  unfold parseJobRow
  rw [h]

/-- A `<tr>` with a `class` attribute but fewer than 8 `<td>` cells is
skipped by the row body. -/
theorem parseJobRow_short (row : Node) (cl : String)
    (h : row.attrGet "class" = some cl)
    (hlen : (Node.findAll "td" row).length < 8) :
    parseJobRow row = .ok none := by
  unfold parseJobRow
  rw [h]
  simp [hlen]

/-- Claim C3: a `<tr>` without a `class` attribute never contributes to
the output, whatever its cells hold; a `<tr>` with a `class` attribute but
fewer than 8 `<td>` cells is dropped; and the concrete document `doc3` —
whose data row has 8 cells, status `Completed` and a column-7 anchor with
`href` containing `report=99` — yields exactly the job record `job3` with
`reportId = 99`. -/
theorem parseDecodedAjaxShowJobsData_row_filtering :
    (∀ row rows, Node.attrGet row "class" = none →
      processJobRows (row :: rows) = processJobRows rows) ∧
    (∀ row rows cl, Node.attrGet row "class" = some cl →
      (Node.findAll "td" row).length < 8 →
      processJobRows (row :: rows) = processJobRows rows) ∧
    parseDecodedAjaxShowJobsData doc3 = .ok [job3] ∧
    job3.reportId = 99 := by
  refine ⟨?_, ?_, by decide, by decide⟩
  · intro row rows h
    simp only [processJobRows, parseJobRow_no_class row h]
  · intro row rows cl h hlen
    simp only [processJobRows, parseJobRow_short row cl h hlen]

/-- Witness for C3: the concrete header row (no `class`) and the concrete
7-cell row are both dropped. -/
theorem parseDecodedAjaxShowJobsData_row_filtering_witness :
    processJobRows [trHeader] = processJobRows [] ∧
    processJobRows [tr7] = processJobRows [] := by
  constructor
  · exact parseDecodedAjaxShowJobsData_row_filtering.1 trHeader [] (by decide)
  · exact parseDecodedAjaxShowJobsData_row_filtering.2.1 tr7 [] "x" (by decide) (by decide)

/-- Python `==` against a string literal succeeds exactly on the equal
string value. -/
theorem pyEqStr_true_iff (v : PyVal) (s : String) :
    pyEqStr v s = true ↔ v = .pStr s := by
  cases v with
  | pStr t => simp [pyEqStr]
  | pInt n => simp [pyEqStr]
  | pNone => simp [pyEqStr]
  | pTag t a c => simp [pyEqStr]
  | pList xs => simp [pyEqStr]
  | pDict kvs => simp [pyEqStr]
  | pBool b => simp [pyEqStr]

/-- Any record produced by the row tail carries the status it was given,
and its report id differs from the sentinel only if that status compared
equal to `"Completed"`. -/
theorem jobRowFinish_fields (idVal : Int) (status agent : PyVal) (col7 : Node)
    (j : ParsedJob) (h : jobRowFinish idVal status agent col7 = .ok (some j)) :
    j.status = status ∧ (j.reportId ≠ -1 → pyEqStr status "Completed" = true) := by
  unfold jobRowFinish at h
  by_cases hc : pyEqStr status "Completed" = true
  · rw [if_pos hc] at h
    split at h
    · simp only [Except.ok.injEq, Option.some.injEq] at h
      subst h
      exact ⟨rfl, fun _ => hc⟩
    · split at h
      · exact absurd h (by simp)
      · split at h
        · exact absurd h (by simp)
        · simp only [Except.ok.injEq, Option.some.injEq] at h
          subst h
          exact ⟨rfl, fun _ => hc⟩
  · rw [if_neg hc] at h
    simp only [Except.ok.injEq, Option.some.injEq] at h
    subst h
    exact ⟨rfl, fun hr => absurd rfl hr⟩

/-- Any record produced from a single `<tr>` has a non-sentinel report id
only if its status is the string `"Completed"`. -/
theorem parseJobRow_reportId_completed (row : Node) (j : ParsedJob)
    (h : parseJobRow row = .ok (some j)) (hr : j.reportId ≠ -1) :
    j.status = PyVal.pStr "Completed" := by
  unfold parseJobRow at h
  split at h
  · exact absurd h (by simp)
  · split at h
    · exact absurd h (by simp)
    · split at h
      · exact absurd h (by simp)
      · split at h
        · exact absurd h (by simp)
        · split at h
          · exact absurd h (by simp)
          · split at h
            · exact absurd h (by simp)
            · obtain ⟨hs, himp⟩ := jobRowFinish_fields _ _ _ _ _ h
              exact hs.trans ((pyEqStr_true_iff _ _).mp (himp hr))

/-- Over the whole row loop: every returned record with a non-sentinel
report id has status `"Completed"`. -/
theorem processJobRows_reportId (rows : List Node) (jobs : List ParsedJob)
    (h : processJobRows rows = .ok jobs) :
    ∀ j ∈ jobs, j.reportId ≠ -1 → j.status = PyVal.pStr "Completed" := by
  induction rows generalizing jobs with
  | nil =>
    simp only [processJobRows] at h
    cases h
    intro j hj
    exact absurd hj (by simp)
  | cons r rest ih =>
    simp only [processJobRows] at h
    cases h1 : parseJobRow r with
    | error e => rw [h1] at h; exact absurd h (by simp)
    | ok jo =>
      rw [h1] at h
      cases jo with
      | none => exact ih jobs h
      | some j0 =>
        cases h2 : processJobRows rest with
        | error e => rw [h2] at h; exact absurd h (by simp)
        | ok js =>
          rw [h2] at h
          have hres : j0 :: js = jobs := by simpa using h
          subst hres
          intro j hj hr
          rcases List.mem_cons.mp hj with rfl | hj2
          · exact parseJobRow_reportId_completed r j h1 hr
          · exact ih js h2 j hj2 hr

/-- Any record produced by the single-job body has a non-sentinel report
id only if status is `"Completed"` and the agent is one of the two SPDX
reporter names. -/
theorem parseSingleJobArr_report_conditions (parse : String → Node)
    (jobArr : JsonVal) (job : ParsedJob)
    (h : parseSingleJobArr parse jobArr = .ok (some job))
    (hr : job.reportId ≠ -1) :
    job.status = PyVal.pStr "Completed" ∧
    (job.agent = PyVal.pStr "spdx2tv" ∨ job.agent = PyVal.pStr "spdx2") := by
  unfold parseSingleJobArr at h
  split at h
  · exact absurd h (by simp)
  · split at h
    · exact absurd h (by simp)
    · split at h
      · exact absurd h (by simp)
      · split at h
        · exact absurd h (by simp)
        · split at h
          · exact absurd h (by simp)
          · split at h
            · exact absurd h (by simp)
            · split at h
              · exact absurd h (by simp)
              · split at h
                · exact absurd h (by simp)
                · split at h
                  · exact absurd h (by simp)
                  · split at h
                    · exact absurd h (by simp)
                    · split at h
                      · -- report-id conversion branch
                        rename_i hcond
                        split at h
                        · exact absurd h (by simp)
                        · simp only [Except.ok.injEq, Option.some.injEq] at h
                          subst h
                          simp only [Bool.and_eq_true, Bool.or_eq_true,
                            pyEqStr_true_iff] at hcond
                          exact ⟨hcond.2, hcond.1⟩
                      · -- guard false: the record keeps the sentinel
                        simp only [Except.ok.injEq, Option.some.injEq] at h
                        subst h
                        exact absurd rfl hr

/-- Claim C2: for every job record returned by either extractor, the
report id differs from the sentinel `-1` only if the status is exactly
`"Completed"`; for records from `parseSingleJobData`, additionally only if
the agent is `"spdx2tv"` or `"spdx2"`. -/
theorem reportId_only_when_completed :
    (∀ soup jobs, parseDecodedAjaxShowJobsData soup = .ok jobs →
      ∀ j ∈ jobs, j.reportId ≠ -1 → j.status = PyVal.pStr "Completed") ∧
    (∀ (parse : String → Node) (rj : JsonVal) (job : ParsedJob),
      parseSingleJobData parse rj = .ok (some job) → job.reportId ≠ -1 →
        job.status = PyVal.pStr "Completed" ∧
        (job.agent = PyVal.pStr "spdx2tv" ∨ job.agent = PyVal.pStr "spdx2")) := by
  constructor
  · intro soup jobs h
    exact processJobRows_reportId _ jobs h
  · intro parse rj job h hr
    unfold parseSingleJobData at h
    split at h
    · exact absurd h (by simp)
    · exact absurd h (by simp)
    · exact parseSingleJobArr_report_conditions parse _ job h hr

/-- Witness for C2: the records extracted from `doc3` and `rj2` both carry
non-sentinel report ids, and the theorem yields their status and agent
facts. -/
theorem reportId_only_when_completed_witness :
    job3.status = PyVal.pStr "Completed" ∧
    (jobS.status = PyVal.pStr "Completed" ∧
      (jobS.agent = PyVal.pStr "spdx2tv" ∨ jobS.agent = PyVal.pStr "spdx2")) := by
  constructor
  · exact reportId_only_when_completed.1 doc3 [job3] (by decide) job3 (by decide) (by decide)
  · exact reportId_only_when_completed.2 parse9 rj2 jobS (by decide) (by decide)

/-- With fewer than 12 rows the body can never return: every run either
raises before reaching row 11 or raises `IndexError` at `jobArr[11]`. -/
theorem parseSingleJobArr_short (parse : String → Node) (rows : List JsonVal)
    (hlen : rows.length < 12) (x : Option ParsedJob) :
    parseSingleJobArr parse (JsonVal.jArr rows) ≠ .ok x := by
  intro h
  have h11 : (JsonVal.jArr rows).pyIndex 11 = .error .indexError := by
    have hget : rows[11]? = none := by
      rw [List.getElem?_eq_none_iff]
      omega
    simp [JsonVal.pyIndex, hget]
  unfold parseSingleJobArr at h
  repeat' split at h
  all_goals simp_all

/-- Claim C9: for every decoded JSON object whose `aaData` holds fewer
than 12 rows, `parseSingleJobData` propagates an exception — it never
returns a record with absent fields; on the shape-conforming 11-row input
`rj9` the propagated error is precisely the out-of-range `IndexError`. -/
theorem parseSingleJobData_short_aaData_fails (parse : String → Node)
    (kvs : List (String × JsonVal)) (rows : List JsonVal)
    (hfind : (kvs.find? (fun kv => kv.1 = "aaData")).map (fun kv => kv.2) =
      some (.jArr rows))
    (hlen : rows.length < 12) :
    (∃ e, parseSingleJobData parse (JsonVal.jObj kvs) = .error e) ∧
    parseSingleJobData parse9 rj9 = .error .indexError := by
  refine ⟨?_, by decide⟩
  have hstep : parseSingleJobData parse (JsonVal.jObj kvs) =
      parseSingleJobArr parse (JsonVal.jArr rows) := by
    simp only [parseSingleJobData, JsonVal.getOrNone, hfind]
  rw [hstep]
  cases hres : parseSingleJobArr parse (JsonVal.jArr rows) with
  | error e => exact ⟨e, rfl⟩
  | ok x => exact absurd hres (parseSingleJobArr_short parse rows hlen x)

/-- Witness for C9 at the concrete 11-row input. -/
theorem parseSingleJobData_short_aaData_fails_witness :
    (∃ e, parseSingleJobData parse9 (JsonVal.jObj kvs9) = .error e) ∧
    parseSingleJobData parse9 rj9 = .error .indexError :=
  parseSingleJobData_short_aaData_fails parse9 kvs9
    [row0, rowA, rowA, rowA, rowA, rowA, rowA, rowA, rowA, rowA, rowA]
    (by decide) (by decide)
